import Mathlib

/-!
Verification of the gastown worker-fleet orchestration core.

The definitions below are a shallow embedding of the daemon's dog-dispatch
cycle (`handleDogs`, `cleanupStuckDogs`, `dispatchPlugins` in
`internal/daemon`) and of the polecat pending-spawn tracker.

The dispatch cycle's own control flow is translated directly from the Go
source.  Its collaborators (dog.Manager, dog.SessionManager, plugin.Scanner,
plugin.Recorder, mail.Router) are external to the scanned source; their
outcomes are supplied by an explicit environment (`Env`) of fault-injection
inputs, while the registry of dogs is threaded as explicit state.  Every
collaborator call made by the cycle is recorded in an event trace, so that
claims about which calls happen (and which do not) are statements about the
trace.

The pending-spawn tracker's implementation is not part of the scanned
sources (only its tests are), so its operations are modelled from the spec,
as stated in their doc comments, and checked against the scenarios of
`internal/polecat/pending_test.go`.
-/

/-- State of a dog (worker): idle or working, as in `dog.StateIdle` /
`dog.StateWorking`. -/
inductive DogState
  | idle
  | working
deriving DecidableEq

/-- A dog (worker): unique name, state, and the current work description
(present iff working). -/
structure Dog where
  name : String
  state : DogState
  currentWork : String
deriving DecidableEq

/-- The dog registry contents: the persisted fleet state read and mutated
through `dog.Manager`. -/
abbrev Registry := List Dog

/-- Gate types: the dispatch loop only distinguishes cooldown gates from
everything else (`p.Gate.Type != plugin.GateCooldown`), so all non-cooldown
gate types are collapsed into `other`. -/
inductive GateType
  | cooldown
  | other
deriving DecidableEq

/-- A plugin rate-limit gate: `plugin.Gate` with fields `Type` and
`Duration` (a duration string such as "1h"). -/
structure Gate where
  type : GateType
  duration : String
deriving DecidableEq

/-- A work item: `plugin.Plugin` with name, optional gate and instruction
text. -/
structure Plugin where
  name : String
  gate : Option Gate
  instructions : String
deriving DecidableEq

/-- One collaborator call made by the scheduling cycle.  `recordRun` is the
recorder's run-recording operation (`plugin.Recorder`); it is part of the
call vocabulary so that claims about run recording can be stated, and the
embedding of `dispatchPlugins` never emits it because the source function
contains no such call. -/
inductive Event
  | isRunningProbe (dogName : String)
  | clearWork (dogName : String)
  | getIdle (pluginName : String)
  | assignWork (dogName : String) (workDesc : String)
  | sessionStart (dogName : String) (workDesc : String)
  | sendMail (dogName : String) (pluginName : String)
  | recordRun (pluginName : String)
deriving DecidableEq

/-- Outcomes of the cycle's collaborator calls, supplied externally.
`isRunning` returns `none` when the liveness probe itself errors.
`countRuns` returns `none` when `CountRunsSince` fails (e.g. an unknown or
malformed duration string).  `discover` is the result of
`Scanner.DiscoverAll` (`none` = error).  The `..Ok` fields are `false` when
the corresponding call fails. -/
structure Env where
  loadRigsOk : Bool
  listDogsOk : Bool
  isRunning : String → Option Bool
  clearWorkOk : String → Bool
  discover : Option (List Plugin)
  countRuns : String → String → Option Nat
  getIdleOk : String → Bool
  assignOk : String → Bool
  startOk : String → Bool
  sendOk : String → Bool

/-- Registry effect of a successful `AssignWork`: the named dog becomes
working with the given description. -/
def setWorking (reg : Registry) (n desc : String) : Registry :=
  reg.map fun d => if d.name = n then { d with state := DogState.working, currentWork := desc } else d

/-- Registry effect of a successful `ClearWork`: the named dog becomes idle
and its work description is cleared. -/
def setIdle (reg : Registry) (n : String) : Registry :=
  reg.map fun d => if d.name = n then { d with state := DogState.idle, currentWork := "" } else d

/-- `GetIdleDog`: the first idle dog in the registry, or `none`. -/
def firstIdle (reg : Registry) : Option Dog :=
  reg.find? fun d => decide (d.state = DogState.idle)

/-- State of the named dog as recorded in the registry. -/
def dogState (reg : Registry) (n : String) : Option DogState :=
  (reg.find? fun d => decide (d.name = n)).map Dog.state

/-- Current work description of the named dog as recorded in the registry. -/
def currentWorkOf (reg : Registry) (n : String) : Option String :=
  (reg.find? fun d => decide (d.name = n)).map Dog.currentWork

/-- Result of processing one work item in the dispatch loop: the updated
registry, the collaborator calls made, and whether the loop continues with
the remaining items (`false` embeds the source's early `return`). -/
structure StepResult where
  reg : Registry
  events : List Event
  cont : Bool
deriving DecidableEq

/-- The idle-dog lookup / assign / start / send part of one iteration of the
`dispatchPlugins` loop, translated from the source:
  * `GetIdleDog` error: log and `return` (abort the pass);
  * no idle dog: log and `return` (defer remaining plugins);
  * `AssignWork` failure: log and `continue`;
  * `Start` failure: roll back via `ClearWork` (failure of the rollback is
    only logged), then `continue`;
  * `Start` success: `router.Send` the task mail; a send failure is only
    logged, with no rollback.
The send outcome (`env.sendOk`) does not influence the result, exactly as in
the source, where the send error is logged and otherwise ignored. -/
def dispatchAttempt (env : Env) (reg : Registry) (p : Plugin) : StepResult :=
  if env.getIdleOk p.name = false then ⟨reg, [Event.getIdle p.name], false⟩
  else
    match firstIdle reg with
    | none => ⟨reg, [Event.getIdle p.name], false⟩
    | some d =>
      let desc := "plugin:" ++ p.name
      if env.assignOk d.name = false then
        ⟨reg, [Event.getIdle p.name, Event.assignWork d.name desc], true⟩
      else
        let reg1 := setWorking reg d.name desc
        if env.startOk d.name = false then
          if env.clearWorkOk d.name then
            ⟨setIdle reg1 d.name,
             [Event.getIdle p.name, Event.assignWork d.name desc,
              Event.sessionStart d.name desc, Event.clearWork d.name], true⟩
          else
            ⟨reg1,
             [Event.getIdle p.name, Event.assignWork d.name desc,
              Event.sessionStart d.name desc, Event.clearWork d.name], true⟩
        else
          ⟨reg1,
           [Event.getIdle p.name, Event.assignWork d.name desc,
            Event.sessionStart d.name desc, Event.sendMail d.name p.name], true⟩

/-- One iteration of the `dispatchPlugins` loop including the gate logic,
translated from the source:
  * `p.Gate == nil || p.Gate.Type != plugin.GateCooldown`: `continue`
    (only cooldown-gated plugins are dispatched);
  * non-empty duration: `CountRunsSince`; on error log and `continue`,
    on a positive count `continue` (still in cooldown);
  * otherwise fall through to the dispatch attempt. -/
def dispatchStep (env : Env) (reg : Registry) (p : Plugin) : StepResult :=
  match p.gate with
  | none => ⟨reg, [], true⟩
  | some g =>
    match g.type with
    | GateType.other => ⟨reg, [], true⟩
    | GateType.cooldown =>
      if g.duration = "" then dispatchAttempt env reg p
      else
        match env.countRuns p.name g.duration with
        | none => ⟨reg, [], true⟩
        | some c => if 0 < c then ⟨reg, [], true⟩ else dispatchAttempt env reg p

/-- The `for _, p := range plugins` loop of `dispatchPlugins`, with the
early `return`s embedded as `cont = false`. -/
def dispatchList (env : Env) : Registry → List Plugin → Registry × List Event
  | reg, [] => (reg, [])
  | reg, p :: rest =>
    let s := dispatchStep env reg p
    if s.cont then
      let r := dispatchList env s.reg rest
      (r.1, s.events ++ r.2)
    else (s.reg, s.events)

/-- `dispatchPlugins`: discover plugins (an error or an empty set ends the
pass), then run the dispatch loop. -/
def dispatchPlugins (env : Env) (reg : Registry) : Registry × List Event :=
  match env.discover with
  | none => (reg, [])
  | some plugins => if plugins = [] then (reg, []) else dispatchList env reg plugins

/-- One iteration of the `cleanupStuckDogs` loop, translated from the
source: dogs not in state working are skipped; a probe error is logged and
the dog skipped; a live session is left alone; a dead session triggers
`ClearWork` (whose own failure is only logged). -/
def cleanupOne (env : Env) (reg : Registry) (dg : Dog) : Registry × List Event :=
  if dg.state ≠ DogState.working then (reg, [])
  else
    match env.isRunning dg.name with
    | none => (reg, [Event.isRunningProbe dg.name])
    | some true => (reg, [Event.isRunningProbe dg.name])
    | some false =>
      if env.clearWorkOk dg.name then
        (setIdle reg dg.name, [Event.isRunningProbe dg.name, Event.clearWork dg.name])
      else (reg, [Event.isRunningProbe dg.name, Event.clearWork dg.name])

/-- The `for _, dg := range dogs` loop of `cleanupStuckDogs` over the listed
snapshot, threading the registry state. -/
def cleanupList (env : Env) : Registry → List Dog → Registry × List Event
  | reg, [] => (reg, [])
  | reg, dg :: rest =>
    let s := cleanupOne env reg dg
    let r := cleanupList env s.1 rest
    (r.1, s.2 ++ r.2)

/-- `cleanupStuckDogs`: list the dogs (an error ends the pass), then repair
each working dog whose session is dead.  `mgr.List()` returns the current
registry contents, so the snapshot iterated over is `reg` itself. -/
def cleanupStuckDogs (env : Env) (reg : Registry) : Registry × List Event :=
  if env.listDogsOk then cleanupList env reg reg else (reg, [])

/-- `handleDogs`: load the rigs configuration; on failure log and return
(nothing else runs this cycle).  Otherwise run the stuck-repair pass and
then the dispatch pass. -/
def handleDogs (env : Env) (reg : Registry) : Registry × List Event :=
  if env.loadRigsOk then
    let c := cleanupStuckDogs env reg
    let d := dispatchPlugins env c.1
    (d.1, c.2 ++ d.2)
  else (reg, [])

/-- The gate logic of one loop iteration lets the item through to a
dispatch attempt: the gate is present, of cooldown type, and the cooldown
check passes (empty duration, or a successful run count of zero). -/
def eligibleGate (env : Env) (p : Plugin) : Bool :=
  match p.gate with
  | none => false
  | some g =>
    match g.type with
    | GateType.other => false
    | GateType.cooldown =>
      if g.duration = "" then true
      else
        match env.countRuns p.name g.duration with
        | none => false
        | some c => decide (c = 0)

/-- Number of `ClearWork` calls on the named dog in a trace. -/
def countClear (n : String) (evs : List Event) : Nat :=
  evs.count (Event.clearWork n)

/-- Whether an event is a run-recording call of the recorder. -/
def isRecordRunEv : Event → Bool
  | Event.recordRun _ => true
  | _ => false

/-- A mail message (`mail.Message`): identity, logical subject and body
text, and a timestamp (seconds, as an integer). -/
structure Message where
  id : String
  subject : String
  body : String
  timestamp : Int
deriving DecidableEq

/-- Modelled from the spec: the persisted state of one mailbox (`mail.Mailbox`,
implementation not among the scanned sources) — an active set and an
archived set of messages (spec section on the data model and Mailbox
contract). -/
structure Mbox where
  active : List Message
  archived : List Message
deriving DecidableEq

/-- Modelled from the spec: `ArchiveByID` moves the message with the given
id from the active to the archived set and is a no-op (not an error) when
the id is not present in the active set. -/
def archiveByID (mb : Mbox) (i : String) : Mbox :=
  match mb.active.find? fun m => decide (m.id = i) with
  | none => mb
  | some m =>
    ⟨mb.active.filter fun m2 => !decide (m2.id = i), mb.archived ++ [m]⟩

/-- Strip a required leading pattern from a character list (the embedding of
Go's strings.HasPrefix + TrimPrefix pair): `some rest` when the pattern
matches, else `none`. -/
def dropPre : List Char → List Char → Option (List Char)
  | [], s => some s
  | _ :: _, [] => none
  | c :: cs, d :: ds => if c = d then dropPre cs ds else none

/-- Split a character list at the first occurrence of a separator (the
embedding of Go's strings.Cut): `none` when the separator is absent. -/
def splitFirst (sep : Char) : List Char → Option (List Char × List Char)
  | [] => none
  | c :: cs =>
    if c = sep then some ([], cs)
    else (splitFirst sep cs).map fun r => (c :: r.1, r.2)

/-- Split a character list on every occurrence of a separator (the embedding
of Go's strings.Split). -/
def splitOnChar (sep : Char) : List Char → List (List Char)
  | [] => [[]]
  | c :: cs =>
    match splitOnChar sep cs with
    | [] => if c = sep then [[], []] else [[c]]
    | r :: rs => if c = sep then [] :: r :: rs else (c :: r) :: rs

/-- First line carrying the given `Key: ` pattern, with the pattern
stripped. -/
def findField (key : List Char) : List (List Char) → Option (List Char)
  | [] => none
  | l :: ls =>
    match dropPre key l with
    | some v => some v
    | none => findField key ls

/-- A pending spawn record, as read back by the tests: rig and polecat names
from the subject, session and issue from the body, the id of the backing
message, the message timestamp, and whether the record carries a (non-nil)
reference to its backing mailbox. -/
structure PendingSpawn where
  rig : String
  polecat : String
  session : String
  issue : String
  mailId : String
  spawnedAt : Int
  hasMailbox : Bool
deriving DecidableEq

/-- Modelled from the spec: parse one message as a "work started"
notification (spec: subject pattern `POLECAT_STARTED <rig>/<polecat>`,
body lines `Session: ...` and `Issue: ...`).  Messages whose subject does
not match, or lack the `/` separator, or whose body misses a required
field, are skipped (`none`), never an error. -/
def parseSpawn (m : Message) : Option PendingSpawn :=
  match dropPre "POLECAT_STARTED ".data m.subject.data with
  | none => none
  | some rest =>
    match splitFirst '/' rest with
    | none => none
    | some rp =>
      let lines := splitOnChar '\n' m.body.data
      match findField "Session: ".data lines, findField "Issue: ".data lines with
      | some s, some i =>
        some ⟨String.mk rp.1, String.mk rp.2, String.mk s, String.mk i, m.id, m.timestamp, true⟩
      | _, _ => none

/-- The subject-pattern part of `parseSpawn` alone: `some (rig, polecat)`
iff the subject carries the started-notification pattern and the `/`
separator. -/
def subjectParts (s : String) : Option (List Char × List Char) :=
  match dropPre "POLECAT_STARTED ".data s.data with
  | none => none
  | some rest => splitFirst '/' rest

/-- Modelled from the spec: `checkMailboxForSpawns` scans the active
messages and returns one PendingSpawn per parsable started-notification,
each holding a back-reference to the mailbox and the source message id. -/
def checkMailboxForSpawns (mb : Mbox) : List PendingSpawn :=
  mb.active.filterMap parseSpawn

/-- A pending spawn is stale when its `spawnedAt` is older than
`now - maxAge`. -/
def stale (now maxAge : Int) (p : PendingSpawn) : Bool :=
  decide (maxAge < now - p.spawnedAt)

/-- The backing-message ids of the stale entries of a pending list, in
order. -/
def staleIds (pending : List PendingSpawn) (now maxAge : Int) : List String :=
  (pending.filter (stale now maxAge)).map PendingSpawn.mailId

/-- Modelled from the spec: `pruneStalePendingFromList` archives (via the
backing mailbox) every entry older than `now - maxAge` and returns the
count pruned; an entry that must be archived but carries a nil mailbox
reference yields a NilMailboxError.  The shared backing mailbox is threaded
as explicit state. -/
def pruneStalePendingFromList :
    List PendingSpawn → Int → Int → Mbox → Except String (Nat × Mbox)
  | [], _, _, mb => Except.ok (0, mb)
  | p :: rest, now, maxAge, mb =>
    if stale now maxAge p then
      if p.hasMailbox then
        match pruneStalePendingFromList rest now maxAge (archiveByID mb p.mailId) with
        | Except.ok r => Except.ok (r.1 + 1, r.2)
        | Except.error e => Except.error e
      else Except.error "nil mailbox in pending spawn"
    else pruneStalePendingFromList rest now maxAge mb

/-- A single idle dog. -/
def dogRex : Dog := ⟨"rex", DogState.idle, ""⟩

/-- A one-dog registry with the dog idle. -/
def regOne : Registry := [dogRex]

/-- A fully healthy environment: every collaborator call succeeds, no plugin
has run recently, no plugins are discovered (overridden per scenario). -/
def envBase : Env :=
  { loadRigsOk := true
    listDogsOk := true
    isRunning := fun _ => some true
    clearWorkOk := fun _ => true
    discover := none
    countRuns := fun _ _ => some 0
    getIdleOk := fun _ => true
    assignOk := fun _ => true
    startOk := fun _ => true
    sendOk := fun _ => true }

/-- A work item with no gate at all. -/
def pNoGate : Plugin := ⟨"backup", none, "run the backup"⟩

/-- A cooldown-gated work item with an empty duration (gate check passes). -/
def pSweep : Plugin := ⟨"sweep", some ⟨GateType.cooldown, ""⟩, "sweep the town"⟩

/-- A cooldown-gated work item whose duration string is malformed, so the
run-count query fails. -/
def pBadDuration : Plugin := ⟨"bogus-gate", some ⟨GateType.cooldown, "notaduration"⟩, "x"⟩

/-- C1 counterexample input: one gateless plugin discovered, all else
healthy. -/
def envC1 : Env := { envBase with discover := some [pNoGate] }

/-- C3 counterexample input: the run-count query fails on the malformed
duration. -/
def envC3 : Env :=
  { envBase with discover := some [pBadDuration], countRuns := fun _ _ => none }

/-- C2 counterexample input: one eligible plugin; the mail send fails. -/
def envC2 : Env := { envBase with discover := some [pSweep], sendOk := fun _ => false }

/-- Two eligible cooldown-gated work items. -/
def pAlpha : Plugin := ⟨"alpha", some ⟨GateType.cooldown, ""⟩, "a"⟩

def pBeta : Plugin := ⟨"beta", some ⟨GateType.cooldown, ""⟩, "b"⟩

/-- C4 counterexample input: the idle-dog lookup errors while processing the
first item. -/
def envC4 : Env :=
  { envBase with
    discover := some [pAlpha, pBeta]
    getIdleOk := fun n => if n = "alpha" then false else true }

/-- Environment in which every `AssignWork` call fails. -/
def envAssignFail : Env := { envBase with assignOk := fun _ => false }

/-- Environment in which every `Session.Start` call fails. -/
def envStartFail : Env := { envBase with startOk := fun _ => false }

/-- Environment in which every mail send fails. -/
def envSendFail : Env := { envBase with sendOk := fun _ => false }

/-- Environment in which loading the rigs configuration fails. -/
def envNoConfig : Env := { envBase with loadRigsOk := false, discover := some [pSweep] }

/-- A dog marked working (for the stuck-repair scenarios). -/
def dogStuck : Dog := ⟨"fido", DogState.working, "plugin:old"⟩

/-- A one-dog registry with the dog working. -/
def regStuck : Registry := [dogStuck]

/-- The dog's session is dead: the probe answers `false` without error. -/
def envDead : Env := { envBase with isRunning := fun _ => some false }

/-- The liveness probe itself errors. -/
def envProbeErr : Env := { envBase with isRunning := fun _ => none }

/-- The started-notification message of the pending-spawn basic scenario. -/
def msgC8 : Message :=
  ⟨"mail-001", "POLECAT_STARTED gastown/Toast",
   "Session: gt-gastown-polecat-Toast\nIssue: gt-abc123", -60⟩

/-- A mailbox whose only active message is the basic started-notification. -/
def mbC8 : Mbox := ⟨[msgC8], []⟩

/-- The pending spawn expected from the basic scenario. -/
def psC8 : PendingSpawn :=
  ⟨"gastown", "Toast", "gt-gastown-polecat-Toast", "gt-abc123", "mail-001", -60, true⟩

/-- A message whose subject matches the event name but lacks the `/`
separator. -/
def msgBad : Message :=
  ⟨"mail-009", "POLECAT_STARTED no-slash-here", "Session: s\nIssue: i", 0⟩

/-- A mailbox holding only the malformed-subject message. -/
def mbBad : Mbox := ⟨[msgBad], []⟩

/-- A pending spawn aged 10 minutes (600 s before the reference time 0). -/
def psOld : PendingSpawn :=
  ⟨"gastown", "OldToast", "s-old", "ref-old", "mail-old", -600, true⟩

/-- A pending spawn aged 1 minute. -/
def psNew : PendingSpawn :=
  ⟨"gastown", "NewToast", "s-new", "ref-new", "mail-new", -60, true⟩

/-- The backing message of the 10-minute-old pending spawn. -/
def msgOld : Message := ⟨"mail-old", "POLECAT_STARTED gastown/OldToast", "", -600⟩

/-- The backing message of the 1-minute-old pending spawn. -/
def msgNew : Message := ⟨"mail-new", "POLECAT_STARTED gastown/NewToast", "", -60⟩

/-- The mailbox backing the two pending spawns of the pruning scenario. -/
def mbPrune : Mbox := ⟨[msgOld, msgNew], []⟩

/-- A stale pending entry with a nil mailbox reference. -/
def psNil : PendingSpawn :=
  ⟨"gastown", "Toast", "s", "ref", "mail-001", -600, false⟩

theorem dispatchStep_of_eligible (env : Env) (reg : Registry) (p : Plugin)
    (h : eligibleGate env p = true) :
    dispatchStep env reg p = dispatchAttempt env reg p := by
  obtain ⟨n, og, ins⟩ := p
  cases og with
  | none => simp [eligibleGate] at h
  | some g =>
    obtain ⟨t, dur⟩ := g
    cases t with
    | other => simp [eligibleGate] at h
    | cooldown =>
      by_cases hd : dur = ""
      · subst hd
        simp [dispatchStep]
      · cases hc : env.countRuns n dur with
        | none => simp [eligibleGate, hd, hc] at h
        | some c =>
          simp only [eligibleGate, hd, hc, if_neg, decide_eq_true_eq, if_false] at h
          simp [dispatchStep, hd, hc, h]

theorem firstIdle_mem {reg : Registry} {d : Dog} (h : firstIdle reg = some d) :
    d ∈ reg ∧ d.state = DogState.idle := by
  refine ⟨List.mem_of_find?_eq_some h, ?_⟩
  have := List.find?_some h
  simpa using this

theorem find?_name_of_nodup {reg : Registry} {d : Dog}
    (hnd : (reg.map Dog.name).Nodup) (hm : d ∈ reg) :
    (reg.find? fun x => decide (x.name = d.name)) = some d := by
  induction reg with
  | nil => cases hm
  | cons a t ih =>
    rw [List.map_cons, List.nodup_cons] at hnd
    rcases List.mem_cons.mp hm with h1 | h1
    · subst h1
      simp [List.find?]
    · have hne : a.name ≠ d.name := by
        intro he
        exact hnd.1 (he ▸ List.mem_map_of_mem Dog.name h1)
      rw [List.find?]
      have hd : decide (a.name = d.name) = false := by simpa using hne
      rw [hd]
      exact ih hnd.2 h1

theorem find?_name_map_update (reg : Registry) (n m : String) (f : Dog → Dog)
    (hf : ∀ d, (f d).name = d.name) :
    ((reg.map fun d => if d.name = m then f d else d).find? fun x => decide (x.name = n)) =
      (reg.find? fun x => decide (x.name = n)).map fun d => if d.name = m then f d else d := by
  induction reg with
  | nil => rfl
  | cons a t ih =>
    have hname : (if a.name = m then f a else a).name = a.name := by
      split
      · exact hf a
      · rfl
    rw [List.map_cons, List.find?, List.find?, hname]
    by_cases ha : a.name = n
    · simp [ha]
    · have hd : decide (a.name = n) = false := by simpa using ha
      rw [hd]
      exact ih

theorem setWorking_eq_map (reg : Registry) (n desc : String) :
    setWorking reg n desc =
      reg.map fun d => if d.name = n then { d with state := DogState.working, currentWork := desc } else d := rfl

theorem setIdle_eq_map (reg : Registry) (n : String) :
    setIdle reg n =
      reg.map fun d => if d.name = n then { d with state := DogState.idle, currentWork := "" } else d := rfl

theorem dogState_setWorking_self (reg : Registry) (n desc : String) :
    dogState (setWorking reg n desc) n = (dogState reg n).map fun _ => DogState.working := by
  unfold dogState
  rw [setWorking_eq_map,
      find?_name_map_update reg n n
        (fun d => { d with state := DogState.working, currentWork := desc }) (fun d => rfl)]
  cases hf : reg.find? fun x => decide (x.name = n) with
  | none => rfl
  | some d =>
    have hd : d.name = n := by simpa using List.find?_some hf
    simp [hd]

theorem dogState_setIdle_self (reg : Registry) (n : String) :
    dogState (setIdle reg n) n = (dogState reg n).map fun _ => DogState.idle := by
  unfold dogState
  rw [setIdle_eq_map,
      find?_name_map_update reg n n
        (fun d => { d with state := DogState.idle, currentWork := "" }) (fun d => rfl)]
  cases hf : reg.find? fun x => decide (x.name = n) with
  | none => rfl
  | some d =>
    have hd : d.name = n := by simpa using List.find?_some hf
    simp [hd]

theorem currentWorkOf_setWorking_self (reg : Registry) (n desc : String) :
    currentWorkOf (setWorking reg n desc) n = (currentWorkOf reg n).map fun _ => desc := by
  unfold currentWorkOf
  rw [setWorking_eq_map,
      find?_name_map_update reg n n
        (fun d => { d with state := DogState.working, currentWork := desc }) (fun d => rfl)]
  cases hf : reg.find? fun x => decide (x.name = n) with
  | none => rfl
  | some d =>
    have hd : d.name = n := by simpa using List.find?_some hf
    simp [hd]

theorem dogState_setIdle_ne (reg : Registry) (m n : String) (h : m ≠ n) :
    dogState (setIdle reg m) n = dogState reg n := by
  unfold dogState
  rw [setIdle_eq_map,
      find?_name_map_update reg n m
        (fun d => { d with state := DogState.idle, currentWork := "" }) (fun d => rfl)]
  cases hf : reg.find? fun x => decide (x.name = n) with
  | none => rfl
  | some d =>
    have hd : d.name = n := by simpa using List.find?_some hf
    have hne : ¬ d.name = m := by
      rw [hd]
      exact fun he => h he.symm
    simp [hne]

theorem dispatchList_cons (env : Env) (reg : Registry) (p : Plugin) (rest : List Plugin) :
    dispatchList env reg (p :: rest) =
      if (dispatchStep env reg p).cont then
        ((dispatchList env (dispatchStep env reg p).reg rest).1,
         (dispatchStep env reg p).events ++ (dispatchList env (dispatchStep env reg p).reg rest).2)
      else ((dispatchStep env reg p).reg, (dispatchStep env reg p).events) := rfl

theorem attempt_no_recordRun (env : Env) (reg : Registry) (p : Plugin) :
    (dispatchAttempt env reg p).events.filter isRecordRunEv = [] := by
  unfold dispatchAttempt
  by_cases hg : env.getIdleOk p.name = false
  · simp [hg, isRecordRunEv]
  · rw [if_neg hg]
    cases firstIdle reg with
    | none => simp [isRecordRunEv]
    | some d =>
      dsimp only
      by_cases ha : env.assignOk d.name = false
      · simp [ha, isRecordRunEv]
      · rw [if_neg ha]
        by_cases hs : env.startOk d.name = false
        · rw [if_pos hs]
          by_cases hc : env.clearWorkOk d.name
          · simp [hc, isRecordRunEv]
          · simp [hc, isRecordRunEv]
        · simp [hs, isRecordRunEv]

theorem step_no_recordRun (env : Env) (reg : Registry) (p : Plugin) :
    (dispatchStep env reg p).events.filter isRecordRunEv = [] := by
  obtain ⟨n, og, ins⟩ := p
  cases og with
  | none => simp [dispatchStep]
  | some g =>
    obtain ⟨t, dur⟩ := g
    cases t with
    | other => simp [dispatchStep]
    | cooldown =>
      by_cases hd : dur = ""
      · subst hd
        simpa [dispatchStep] using attempt_no_recordRun env reg ⟨n, some ⟨GateType.cooldown, ""⟩, ins⟩
      · simp only [dispatchStep]
        rw [if_neg hd]
        cases hc : env.countRuns n dur with
        | none => rfl
        | some c =>
          by_cases h0 : 0 < c
          · simp [h0]
          · simpa [h0] using attempt_no_recordRun env reg ⟨n, some ⟨GateType.cooldown, dur⟩, ins⟩

theorem dispatchList_no_recordRun (env : Env) (reg : Registry) (ps : List Plugin) :
    (dispatchList env reg ps).2.filter isRecordRunEv = [] := by
  induction ps generalizing reg with
  | nil => rfl
  | cons p rest ih =>
    rw [dispatchList_cons]
    by_cases hc : (dispatchStep env reg p).cont
    · simp only [hc, if_true, List.filter_append, step_no_recordRun, ih, List.append_nil]
    · simp only [hc, if_false, Bool.false_eq_true, step_no_recordRun]

theorem cleanupOne_no_recordRun (env : Env) (reg : Registry) (dg : Dog) :
    (cleanupOne env reg dg).2.filter isRecordRunEv = [] := by
  unfold cleanupOne
  by_cases hw : dg.state ≠ DogState.working
  · simp [hw]
  · rw [if_neg hw]
    cases env.isRunning dg.name with
    | none => simp [isRecordRunEv]
    | some b =>
      cases b with
      | true => simp [isRecordRunEv]
      | false =>
        by_cases hc : env.clearWorkOk dg.name
        · simp [hc, isRecordRunEv]
        · simp [hc, isRecordRunEv]

theorem cleanupList_no_recordRun (env : Env) (reg : Registry) (l : List Dog) :
    (cleanupList env reg l).2.filter isRecordRunEv = [] := by
  induction l generalizing reg with
  | nil => rfl
  | cons dg rest ih =>
    show ((cleanupOne env reg dg).2 ++ (cleanupList env (cleanupOne env reg dg).1 rest).2).filter isRecordRunEv = []
    rw [List.filter_append, cleanupOne_no_recordRun, ih, List.append_nil]

theorem dispatchAttempt_getIdleFail (env : Env) (reg : Registry) (p : Plugin)
    (hget : env.getIdleOk p.name = false) :
    dispatchAttempt env reg p = ⟨reg, [Event.getIdle p.name], false⟩ := by
  simp [dispatchAttempt, hget]

theorem dispatchAttempt_noIdle (env : Env) (reg : Registry) (p : Plugin)
    (hget : env.getIdleOk p.name = true) (hfi : firstIdle reg = none) :
    dispatchAttempt env reg p = ⟨reg, [Event.getIdle p.name], false⟩ := by
  simp [dispatchAttempt, hget, hfi]

theorem dispatchAttempt_assignFail (env : Env) (reg : Registry) (p : Plugin) (d : Dog)
    (hget : env.getIdleOk p.name = true) (hfi : firstIdle reg = some d)
    (hassign : env.assignOk d.name = false) :
    dispatchAttempt env reg p =
      ⟨reg, [Event.getIdle p.name, Event.assignWork d.name ("plugin:" ++ p.name)], true⟩ := by
  simp [dispatchAttempt, hget, hfi, hassign]

theorem dispatchAttempt_rollback (env : Env) (reg : Registry) (p : Plugin) (d : Dog)
    (hget : env.getIdleOk p.name = true) (hfi : firstIdle reg = some d)
    (hassign : env.assignOk d.name = true) (hstart : env.startOk d.name = false)
    (hclear : env.clearWorkOk d.name = true) :
    dispatchAttempt env reg p =
      ⟨setIdle (setWorking reg d.name ("plugin:" ++ p.name)) d.name,
       [Event.getIdle p.name, Event.assignWork d.name ("plugin:" ++ p.name),
        Event.sessionStart d.name ("plugin:" ++ p.name), Event.clearWork d.name], true⟩ := by
  simp [dispatchAttempt, hget, hfi, hassign, hstart, hclear]

theorem dispatchAttempt_started (env : Env) (reg : Registry) (p : Plugin) (d : Dog)
    (hget : env.getIdleOk p.name = true) (hfi : firstIdle reg = some d)
    (hassign : env.assignOk d.name = true) (hstart : env.startOk d.name = true) :
    dispatchAttempt env reg p =
      ⟨setWorking reg d.name ("plugin:" ++ p.name),
       [Event.getIdle p.name, Event.assignWork d.name ("plugin:" ++ p.name),
        Event.sessionStart d.name ("plugin:" ++ p.name),
        Event.sendMail d.name p.name], true⟩ := by
  simp [dispatchAttempt, hget, hfi, hassign, hstart]

theorem cleanupList_cons (env : Env) (reg : Registry) (a : Dog) (l : List Dog) :
    cleanupList env reg (a :: l) =
      ((cleanupList env (cleanupOne env reg a).1 l).1,
       (cleanupOne env reg a).2 ++ (cleanupList env (cleanupOne env reg a).1 l).2) := rfl

theorem cleanupList_append (env : Env) (l1 l2 : List Dog) :
    ∀ reg, cleanupList env reg (l1 ++ l2) =
      ((cleanupList env (cleanupList env reg l1).1 l2).1,
       (cleanupList env reg l1).2 ++ (cleanupList env (cleanupList env reg l1).1 l2).2) := by
  induction l1 with
  | nil =>
    intro reg
    simp [cleanupList]
  | cons a t ih =>
    intro reg
    rw [List.cons_append, cleanupList_cons, cleanupList_cons, ih (cleanupOne env reg a).1]
    rw [List.append_assoc]

theorem cleanupOne_events_name (env : Env) (reg : Registry) (dg : Dog) :
    ∀ e ∈ (cleanupOne env reg dg).2,
      e = Event.isRunningProbe dg.name ∨ e = Event.clearWork dg.name := by
  intro e he
  unfold cleanupOne at he
  by_cases hw : dg.state ≠ DogState.working
  · rw [if_pos hw] at he
    cases he
  · rw [if_neg hw] at he
    cases hr : env.isRunning dg.name with
    | none =>
      rw [hr] at he
      simp at he
      exact Or.inl he
    | some b =>
      rw [hr] at he
      cases b with
      | true =>
        simp at he
        exact Or.inl he
      | false =>
        by_cases hc : env.clearWorkOk dg.name
        · rw [if_pos hc] at he
          simpa using he
        · rw [if_neg hc] at he
          simpa using he

theorem cleanupOne_clearWork_not_mem (env : Env) (reg : Registry) (dg : Dog) (n : String)
    (h : dg.name ≠ n) : Event.clearWork n ∉ (cleanupOne env reg dg).2 := by
  intro hm
  rcases cleanupOne_events_name env reg dg _ hm with he | he
  · cases he
  · exact h (by injection he with h2; exact h2.symm) |>.elim

theorem cleanupList_countClear_zero (env : Env) (n : String) (l : List Dog)
    (hn : ∀ d ∈ l, d.name ≠ n) :
    ∀ reg, countClear n (cleanupList env reg l).2 = 0 := by
  induction l with
  | nil => intro reg; rfl
  | cons a t ih =>
    intro reg
    rw [cleanupList_cons]
    show countClear n ((cleanupOne env reg a).2 ++ _) = 0
    unfold countClear
    rw [List.count_append]
    have h1 : (cleanupOne env reg a).2.count (Event.clearWork n) = 0 :=
      List.count_eq_zero.mpr (cleanupOne_clearWork_not_mem env reg a n (hn a (List.mem_cons_self a t)))
    have h2 := ih (fun d hd => hn d (List.mem_cons_of_mem a hd)) (cleanupOne env reg a).1
    unfold countClear at h2
    omega

theorem cleanupOne_dogState_ne (env : Env) (reg : Registry) (dg : Dog) (n : String)
    (h : dg.name ≠ n) : dogState (cleanupOne env reg dg).1 n = dogState reg n := by
  unfold cleanupOne
  by_cases hw : dg.state ≠ DogState.working
  · rw [if_pos hw]
  · rw [if_neg hw]
    cases env.isRunning dg.name with
    | none => rfl
    | some b =>
      cases b with
      | true => rfl
      | false =>
        by_cases hc : env.clearWorkOk dg.name
        · rw [if_pos hc]
          exact dogState_setIdle_ne reg dg.name n h
        · rw [if_neg hc]

theorem cleanupList_dogState_ne (env : Env) (n : String) (l : List Dog)
    (hn : ∀ d ∈ l, d.name ≠ n) :
    ∀ reg, dogState (cleanupList env reg l).1 n = dogState reg n := by
  induction l with
  | nil => intro reg; rfl
  | cons a t ih =>
    intro reg
    rw [cleanupList_cons]
    show dogState (cleanupList env (cleanupOne env reg a).1 t).1 n = dogState reg n
    rw [ih (fun d hd => hn d (List.mem_cons_of_mem a hd)) (cleanupOne env reg a).1]
    exact cleanupOne_dogState_ne env reg a n (hn a (List.mem_cons_self a t))

theorem cleanupOne_probe_mem (env : Env) (reg : Registry) (dg : Dog)
    (hw : dg.state = DogState.working) :
    Event.isRunningProbe dg.name ∈ (cleanupOne env reg dg).2 := by
  unfold cleanupOne
  rw [if_neg (by simp [hw])]
  cases env.isRunning dg.name with
  | none => simp
  | some b =>
    cases b with
    | true => simp
    | false =>
      by_cases hc : env.clearWorkOk dg.name
      · simp [hc]
      · simp [hc]

theorem cleanupList_probe_mem (env : Env) (d : Dog) (l : List Dog)
    (hd : d ∈ l) (hw : d.state = DogState.working) :
    ∀ reg, Event.isRunningProbe d.name ∈ (cleanupList env reg l).2 := by
  induction l with
  | nil => cases hd
  | cons a t ih =>
    intro reg
    rw [cleanupList_cons]
    rcases List.mem_cons.mp hd with h1 | h1
    · subst h1
      exact List.mem_append_left _ (cleanupOne_probe_mem env reg d hw)
    · exact List.mem_append_right _ (ih h1 (cleanupOne env reg a).1)

/-- C1, as stated, is false: a discovered work item with an absent gate is
skipped by the dispatch pass — no idle-worker request, no assignment, no
session start — even though an idle dog is available. -/
theorem C1_counterexample :
    pNoGate.gate = none ∧
    firstIdle regOne = some dogRex ∧
    (dispatchPlugins envC1 regOne).2 = [] ∧
    Event.getIdle pNoGate.name ∉ (dispatchPlugins envC1 regOne).2 := by
  decide

/-- C1 amended: a discovered work item whose gate is absent, or whose gate
is not of cooldown type, is skipped by the dispatch pass (no dispatch
attempt, no registry change), and the pass continues with the remaining
items exactly as if the item were not there. -/
theorem C1_non_cooldown_skipped :
    ∀ (env : Env) (reg : Registry) (p : Plugin) (rest : List Plugin),
      (p.gate = none ∨ ∃ g, p.gate = some g ∧ g.type ≠ GateType.cooldown) →
      dispatchStep env reg p = ⟨reg, [], true⟩ ∧
      dispatchList env reg (p :: rest) = dispatchList env reg rest := by
  intro env reg p rest h
  have hstep : dispatchStep env reg p = ⟨reg, [], true⟩ := by
    rcases h with h | ⟨g, hg, ht⟩
    · simp [dispatchStep, h]
    · have hother : g.type = GateType.other := by
        cases htc : g.type
        · exact absurd htc ht
        · rfl
      simp [dispatchStep, hg, hother]
  refine ⟨hstep, ?_⟩
  rw [dispatchList_cons, hstep]
  simp

/-- Witness for the amended C1 at a concrete input. -/
theorem C1_witness :
    dispatchStep envBase regOne pNoGate = ⟨regOne, [], true⟩ ∧
    dispatchList envBase regOne [pNoGate] = dispatchList envBase regOne [] :=
  C1_non_cooldown_skipped envBase regOne pNoGate [] (Or.inl rfl)

/-- C2, as stated, is false: at a concrete input where the cycle reaches the
mail-send step for plugin "sweep" (and the send then fails), no run is
recorded — the dispatch pass makes no run-recording call at all. -/
theorem C2_counterexample :
    Event.sendMail "rex" "sweep" ∈ (handleDogs envC2 regOne).2 ∧
    Event.recordRun "sweep" ∉ (handleDogs envC2 regOne).2 := by
  decide

/-- C2 amended: the scheduling cycle never records a run for any work item,
whether or not the item reached the mail-send step; the recorder is used
read-only (CountRunsSince) by the gate check. -/
theorem C2_no_run_recorded :
    ∀ (env : Env) (reg : Registry), ((handleDogs env reg).2.filter isRecordRunEv) = [] := by
  intro env reg
  unfold handleDogs
  by_cases hl : env.loadRigsOk
  · rw [if_pos hl]
    show (((cleanupStuckDogs env reg).2 ++ (dispatchPlugins env (cleanupStuckDogs env reg).1).2).filter isRecordRunEv) = []
    rw [List.filter_append]
    have h1 : ((cleanupStuckDogs env reg).2.filter isRecordRunEv) = [] := by
      unfold cleanupStuckDogs
      by_cases hd : env.listDogsOk
      · rw [if_pos hd]
        exact cleanupList_no_recordRun env reg reg
      · rw [if_neg hd]
        rfl
    have h2 : ((dispatchPlugins env (cleanupStuckDogs env reg).1).2.filter isRecordRunEv) = [] := by
      unfold dispatchPlugins
      cases env.discover with
      | none => rfl
      | some ps =>
        by_cases hp : ps = []
        · simp [hp]
        · simpa [hp] using dispatchList_no_recordRun env (cleanupStuckDogs env reg).1 ps
    rw [h1, h2, List.append_nil]
  · rw [if_neg hl]
    rfl

/-- Witness for the amended C2 at a concrete input. -/
theorem C2_witness :
    ((handleDogs envC2 regOne).2.filter isRecordRunEv) = [] :=
  C2_no_run_recorded envC2 regOne

/-- C3, as stated, is false: at a concrete input where the work item's
cooldown duration is malformed and the run-count query fails, the item is
skipped (no dispatch attempt at all), not dispatched. -/
theorem C3_counterexample :
    pBadDuration.gate = some ⟨GateType.cooldown, "notaduration"⟩ ∧
    envC3.countRuns pBadDuration.name "notaduration" = none ∧
    firstIdle regOne = some dogRex ∧
    (dispatchPlugins envC3 regOne).2 = [] ∧
    Event.getIdle pBadDuration.name ∉ (dispatchPlugins envC3 regOne).2 := by
  decide

/-- C3 amended: when the run-count query for a cooldown-gated item fails
(unknown/malformed duration), the item is skipped this cycle — fail closed,
with no dispatch attempt and no registry change — and the pass continues
with the remaining items; only an empty duration string bypasses the
run-count query. -/
theorem C3_cooldown_error_skips :
    ∀ (env : Env) (reg : Registry) (p : Plugin) (g : Gate) (rest : List Plugin),
      p.gate = some g → g.type = GateType.cooldown → g.duration ≠ "" →
      env.countRuns p.name g.duration = none →
      dispatchStep env reg p = ⟨reg, [], true⟩ ∧
      dispatchList env reg (p :: rest) = dispatchList env reg rest := by
  intro env reg p g rest hg ht hd hc
  obtain ⟨t, dur⟩ := g
  simp only at ht hd hc
  subst ht
  have hstep : dispatchStep env reg p = ⟨reg, [], true⟩ := by
    unfold dispatchStep
    rw [hg]
    dsimp only
    rw [if_neg hd, hc]
  refine ⟨hstep, ?_⟩
  rw [dispatchList_cons, hstep]
  simp

/-- Witness for the amended C3 at a concrete input. -/
theorem C3_witness :
    dispatchStep envC3 regOne pBadDuration = ⟨regOne, [], true⟩ ∧
    dispatchList envC3 regOne [pBadDuration] = dispatchList envC3 regOne [] :=
  C3_cooldown_error_skips envC3 regOne pBadDuration ⟨GateType.cooldown, "notaduration"⟩ []
    rfl rfl (by decide) rfl

/-- C4, as stated, is false: at a concrete input where the idle-worker
lookup fails while processing the first item, the second (eligible) item is
never considered — the pass aborts for the cycle. -/
theorem C4_counterexample :
    envC4.getIdleOk pAlpha.name = false ∧
    eligibleGate envC4 pBeta = true ∧
    (dispatchPlugins envC4 regOne).2 = [Event.getIdle "alpha"] ∧
    Event.getIdle pBeta.name ∉ (dispatchPlugins envC4 regOne).2 ∧
    Event.assignWork "rex" "plugin:beta" ∉ (dispatchPlugins envC4 regOne).2 := by
  decide

/-- C4 amended: an `AssignWork` failure on one item is isolated — the
remaining items are processed exactly as they would have been — but a
`GetIdleDog` error, or the absence of any idle worker, terminates the
dispatch pass for the cycle, deferring every remaining item to the next
cycle. -/
theorem C4_assign_isolated_getIdle_aborts :
    (∀ (env : Env) (reg : Registry) (p : Plugin) (rest : List Plugin) (d : Dog),
       eligibleGate env p = true →
       env.getIdleOk p.name = true → firstIdle reg = some d →
       env.assignOk d.name = false →
       dispatchList env reg (p :: rest) =
         ((dispatchList env reg rest).1,
          Event.getIdle p.name :: Event.assignWork d.name ("plugin:" ++ p.name) ::
            (dispatchList env reg rest).2))
    ∧ (∀ (env : Env) (reg : Registry) (p : Plugin) (rest : List Plugin),
         eligibleGate env p = true →
         env.getIdleOk p.name = false →
         dispatchList env reg (p :: rest) = (reg, [Event.getIdle p.name]))
    ∧ (∀ (env : Env) (reg : Registry) (p : Plugin) (rest : List Plugin),
         eligibleGate env p = true →
         env.getIdleOk p.name = true → firstIdle reg = none →
         dispatchList env reg (p :: rest) = (reg, [Event.getIdle p.name])) := by
  refine ⟨?_, ?_, ?_⟩
  · intro env reg p rest d he hget hfi hassign
    have hstep : dispatchStep env reg p =
        ⟨reg, [Event.getIdle p.name, Event.assignWork d.name ("plugin:" ++ p.name)], true⟩ := by
      rw [dispatchStep_of_eligible env reg p he]
      exact dispatchAttempt_assignFail env reg p d hget hfi hassign
    rw [dispatchList_cons, hstep]
    simp
  · intro env reg p rest he hget
    have hstep : dispatchStep env reg p = ⟨reg, [Event.getIdle p.name], false⟩ := by
      rw [dispatchStep_of_eligible env reg p he]
      exact dispatchAttempt_getIdleFail env reg p hget
    rw [dispatchList_cons, hstep]
    simp
  · intro env reg p rest he hget hfi
    have hstep : dispatchStep env reg p = ⟨reg, [Event.getIdle p.name], false⟩ := by
      rw [dispatchStep_of_eligible env reg p he]
      exact dispatchAttempt_noIdle env reg p hget hfi
    rw [dispatchList_cons, hstep]
    simp

/-- Witness for the amended C4 at concrete inputs: one instance of each
conjunct. -/
theorem C4_witness :
    (dispatchList envAssignFail regOne [pSweep, pBeta] =
      ((dispatchList envAssignFail regOne [pBeta]).1,
       Event.getIdle "sweep" :: Event.assignWork "rex" "plugin:sweep" ::
         (dispatchList envAssignFail regOne [pBeta]).2)) ∧
    (dispatchList envC4 regOne [pAlpha, pBeta] = (regOne, [Event.getIdle "alpha"])) ∧
    (dispatchList envBase [] [pSweep, pBeta] = ([], [Event.getIdle "sweep"])) :=
  ⟨C4_assign_isolated_getIdle_aborts.1 envAssignFail regOne pSweep [pBeta] dogRex
     (by decide) rfl rfl rfl,
   C4_assign_isolated_getIdle_aborts.2.1 envC4 regOne pAlpha [pBeta] (by decide) rfl,
   C4_assign_isolated_getIdle_aborts.2.2 envBase [] pSweep [pBeta] (by decide) rfl rfl⟩

/-- C5 (confirmed): for an eligible item, if `AssignWork` succeeded and
`Session.Start` then fails, `ClearWork` is invoked on that worker (the
rollback event is in the trace), the worker's registry state afterwards is
Idle (given the rollback call itself succeeds), and the loop continues with
the remaining items from that state. -/
theorem C5_rollback_on_start_failure :
    ∀ (env : Env) (reg : Registry) (p : Plugin) (rest : List Plugin) (d : Dog),
      eligibleGate env p = true →
      env.getIdleOk p.name = true → firstIdle reg = some d →
      env.assignOk d.name = true → env.startOk d.name = false →
      env.clearWorkOk d.name = true →
      (reg.map Dog.name).Nodup →
      Event.clearWork d.name ∈ (dispatchStep env reg p).events ∧
      dogState (dispatchStep env reg p).reg d.name = some DogState.idle ∧
      dispatchList env reg (p :: rest) =
        ((dispatchList env (dispatchStep env reg p).reg rest).1,
         (dispatchStep env reg p).events ++
           (dispatchList env (dispatchStep env reg p).reg rest).2) := by
  intro env reg p rest d he hget hfi hassign hstart hclear hnd
  have hstep : dispatchStep env reg p =
      ⟨setIdle (setWorking reg d.name ("plugin:" ++ p.name)) d.name,
       [Event.getIdle p.name, Event.assignWork d.name ("plugin:" ++ p.name),
        Event.sessionStart d.name ("plugin:" ++ p.name), Event.clearWork d.name], true⟩ := by
    rw [dispatchStep_of_eligible env reg p he]
    exact dispatchAttempt_rollback env reg p d hget hfi hassign hstart hclear
  obtain ⟨hmem, _⟩ := firstIdle_mem hfi
  have hreg : dogState reg d.name = some d.state := by
    unfold dogState
    rw [find?_name_of_nodup hnd hmem]
    rfl
  refine ⟨?_, ?_, ?_⟩
  · rw [hstep]
    simp
  · rw [hstep]
    show dogState (setIdle (setWorking reg d.name ("plugin:" ++ p.name)) d.name) d.name = some DogState.idle
    rw [dogState_setIdle_self, dogState_setWorking_self, hreg]
    rfl
  · rw [dispatchList_cons, hstep]
    simp [hstep]

/-- Witness for C5 at a concrete input. -/
theorem C5_witness :
    Event.clearWork "rex" ∈ (dispatchStep envStartFail regOne pSweep).events ∧
    dogState (dispatchStep envStartFail regOne pSweep).reg "rex" = some DogState.idle ∧
    dispatchList envStartFail regOne [pSweep, pBeta] =
      ((dispatchList envStartFail (dispatchStep envStartFail regOne pSweep).reg [pBeta]).1,
       (dispatchStep envStartFail regOne pSweep).events ++
         (dispatchList envStartFail (dispatchStep envStartFail regOne pSweep).reg [pBeta]).2) :=
  C5_rollback_on_start_failure envStartFail regOne pSweep [pBeta] dogRex
    (by decide) rfl rfl rfl rfl rfl (by decide)

/-- C7 (confirmed): for an eligible item whose session start succeeded, a
failing mail send triggers no rollback: no `ClearWork` call appears in the
item's trace, the worker is left Working with its assigned work description,
and the loop continues with the next item. -/
theorem C7_send_failure_no_rollback :
    ∀ (env : Env) (reg : Registry) (p : Plugin) (rest : List Plugin) (d : Dog),
      eligibleGate env p = true →
      env.getIdleOk p.name = true → firstIdle reg = some d →
      env.assignOk d.name = true → env.startOk d.name = true →
      env.sendOk d.name = false →
      (reg.map Dog.name).Nodup →
      Event.clearWork d.name ∉ (dispatchStep env reg p).events ∧
      dogState (dispatchStep env reg p).reg d.name = some DogState.working ∧
      currentWorkOf (dispatchStep env reg p).reg d.name = some ("plugin:" ++ p.name) ∧
      dispatchList env reg (p :: rest) =
        ((dispatchList env (dispatchStep env reg p).reg rest).1,
         (dispatchStep env reg p).events ++
           (dispatchList env (dispatchStep env reg p).reg rest).2) := by
  intro env reg p rest d he hget hfi hassign hstart hsend hnd
  have hstep : dispatchStep env reg p =
      ⟨setWorking reg d.name ("plugin:" ++ p.name),
       [Event.getIdle p.name, Event.assignWork d.name ("plugin:" ++ p.name),
        Event.sessionStart d.name ("plugin:" ++ p.name),
        Event.sendMail d.name p.name], true⟩ := by
    rw [dispatchStep_of_eligible env reg p he]
    exact dispatchAttempt_started env reg p d hget hfi hassign hstart
  obtain ⟨hmem, _⟩ := firstIdle_mem hfi
  have hreg : dogState reg d.name = some d.state := by
    unfold dogState
    rw [find?_name_of_nodup hnd hmem]
    rfl
  have hwork : currentWorkOf reg d.name = some d.currentWork := by
    unfold currentWorkOf
    rw [find?_name_of_nodup hnd hmem]
    rfl
  refine ⟨?_, ?_, ?_, ?_⟩
  · rw [hstep]
    simp
  · rw [hstep]
    show dogState (setWorking reg d.name ("plugin:" ++ p.name)) d.name = some DogState.working
    rw [dogState_setWorking_self, hreg]
    rfl
  · rw [hstep]
    show currentWorkOf (setWorking reg d.name ("plugin:" ++ p.name)) d.name =
      some ("plugin:" ++ p.name)
    rw [currentWorkOf_setWorking_self, hwork]
    rfl
  · rw [dispatchList_cons, hstep]
    simp [hstep]

/-- Witness for C7 at a concrete input. -/
theorem C7_witness :
    Event.clearWork "rex" ∉ (dispatchStep envSendFail regOne pSweep).events ∧
    dogState (dispatchStep envSendFail regOne pSweep).reg "rex" = some DogState.working ∧
    currentWorkOf (dispatchStep envSendFail regOne pSweep).reg "rex" = some "plugin:sweep" ∧
    dispatchList envSendFail regOne [pSweep, pBeta] =
      ((dispatchList envSendFail (dispatchStep envSendFail regOne pSweep).reg [pBeta]).1,
       (dispatchStep envSendFail regOne pSweep).events ++
         (dispatchList envSendFail (dispatchStep envSendFail regOne pSweep).reg [pBeta]).2) :=
  C7_send_failure_no_rollback envSendFail regOne pSweep [pBeta] dogRex
    (by decide) rfl rfl rfl rfl rfl (by decide)

/-- C10 (confirmed): if loading the rigs configuration fails, the whole
cycle is a no-op — the registry is returned unchanged and no collaborator
call (no probe, no ClearWork, no assignment, no session start, no mail
send) happens. -/
theorem C10_config_failure_noop :
    ∀ (env : Env) (reg : Registry),
      env.loadRigsOk = false →
      handleDogs env reg = (reg, []) := by
  intro env reg h
  unfold handleDogs
  rw [h]
  rfl

/-- Witness for C10 at a concrete input (plugins would be available, but
nothing runs). -/
theorem C10_witness : handleDogs envNoConfig regOne = (regOne, []) :=
  C10_config_failure_noop envNoConfig regOne rfl

/-- C6 (confirmed): in one stuck-repair pass, a Working dog whose liveness
probe returns false (without error) gets exactly one `ClearWork` call and
ends the pass Idle (given the clear succeeds); a Working dog whose probe
errors is skipped unchanged (no `ClearWork`, still Working); and the pass
continues over all the other workers — every Working dog in the registry is
probed. -/
theorem C6_stuck_repair :
    ∀ (env : Env) (reg : Registry) (dg : Dog),
      env.listDogsOk = true →
      (reg.map Dog.name).Nodup →
      dg ∈ reg → dg.state = DogState.working →
      ((env.isRunning dg.name = some false → env.clearWorkOk dg.name = true →
          countClear dg.name (cleanupStuckDogs env reg).2 = 1 ∧
          dogState (cleanupStuckDogs env reg).1 dg.name = some DogState.idle)
       ∧ (env.isRunning dg.name = none →
          countClear dg.name (cleanupStuckDogs env reg).2 = 0 ∧
          dogState (cleanupStuckDogs env reg).1 dg.name = some DogState.working)
       ∧ (∀ d ∈ reg, d.state = DogState.working →
          Event.isRunningProbe d.name ∈ (cleanupStuckDogs env reg).2)) := by
  intro env reg dg hlist hnd hmem hw
  have hcs : cleanupStuckDogs env reg = cleanupList env reg reg := by
    unfold cleanupStuckDogs
    rw [hlist]
    rfl
  have hfound : dogState reg dg.name = some DogState.working := by
    unfold dogState
    rw [find?_name_of_nodup hnd hmem]
    simp [hw]
  obtain ⟨l1, l2, hre⟩ := List.append_of_mem hmem
  subst hre
  have hnd2 : ((l1.map Dog.name) ++ dg.name :: (l2.map Dog.name)).Nodup := by
    rw [← List.map_cons, ← List.map_append]
    exact hnd
  have hsplit := List.nodup_append.mp hnd2
  have hn1 : ∀ d ∈ l1, d.name ≠ dg.name := by
    intro d hd he
    exact hsplit.2.2 (List.mem_map_of_mem Dog.name hd) (he ▸ List.mem_cons_self dg.name _)
  have hn2 : ∀ d ∈ l2, d.name ≠ dg.name := by
    intro d hd he
    exact (List.nodup_cons.mp hsplit.2.1).1 (he ▸ List.mem_map_of_mem Dog.name hd)
  have hr1 : dogState (cleanupList env (l1 ++ dg :: l2) l1).1 dg.name = some DogState.working := by
    rw [cleanupList_dogState_ne env dg.name l1 hn1]
    exact hfound
  have key : ∀ (one : Registry × List Event),
      cleanupOne env (cleanupList env (l1 ++ dg :: l2) l1).1 dg = one →
      cleanupStuckDogs env (l1 ++ dg :: l2) =
        ((cleanupList env one.1 l2).1,
         (cleanupList env (l1 ++ dg :: l2) l1).2 ++
           (one.2 ++ (cleanupList env one.1 l2).2)) := by
    intro one hone
    rw [hcs, cleanupList_append env l1 (dg :: l2), cleanupList_cons, hone]
  refine ⟨?_, ?_, ?_⟩
  · intro hrun hclear
    have hone : cleanupOne env (cleanupList env (l1 ++ dg :: l2) l1).1 dg =
        (setIdle (cleanupList env (l1 ++ dg :: l2) l1).1 dg.name,
         [Event.isRunningProbe dg.name, Event.clearWork dg.name]) := by
      unfold cleanupOne
      rw [if_neg (by simp [hw]), hrun, if_pos hclear]
    rw [key _ hone]
    constructor
    · unfold countClear
      rw [List.count_append, List.count_append]
      have h1 := cleanupList_countClear_zero env dg.name l1 hn1 (l1 ++ dg :: l2)
      have h2 := cleanupList_countClear_zero env dg.name l2 hn2
        (setIdle (cleanupList env (l1 ++ dg :: l2) l1).1 dg.name)
      unfold countClear at h1 h2
      simp only at h1 h2 ⊢
      rw [h1, h2]
      simp
    · show dogState (cleanupList env (setIdle (cleanupList env (l1 ++ dg :: l2) l1).1 dg.name) l2).1 dg.name = some DogState.idle
      rw [cleanupList_dogState_ne env dg.name l2 hn2]
      rw [dogState_setIdle_self, hr1]
      rfl
  · intro hrun
    have hone : cleanupOne env (cleanupList env (l1 ++ dg :: l2) l1).1 dg =
        ((cleanupList env (l1 ++ dg :: l2) l1).1, [Event.isRunningProbe dg.name]) := by
      unfold cleanupOne
      rw [if_neg (by simp [hw]), hrun]
    rw [key _ hone]
    constructor
    · unfold countClear
      rw [List.count_append, List.count_append]
      have h1 := cleanupList_countClear_zero env dg.name l1 hn1 (l1 ++ dg :: l2)
      have h2 := cleanupList_countClear_zero env dg.name l2 hn2
        (cleanupList env (l1 ++ dg :: l2) l1).1
      unfold countClear at h1 h2
      simp only at h1 h2 ⊢
      rw [h1, h2]
      simp
    · show dogState (cleanupList env (cleanupList env (l1 ++ dg :: l2) l1).1 l2).1 dg.name = some DogState.working
      rw [cleanupList_dogState_ne env dg.name l2 hn2]
      exact hr1
  · intro d hd hwd
    rw [hcs]
    exact cleanupList_probe_mem env d (l1 ++ dg :: l2) hd hwd (l1 ++ dg :: l2)

/-- Witness for C6 at concrete inputs: one dead-session repair and one
probe-error skip. -/
theorem C6_witness :
    (countClear "fido" (cleanupStuckDogs envDead regStuck).2 = 1 ∧
     dogState (cleanupStuckDogs envDead regStuck).1 "fido" = some DogState.idle) ∧
    (countClear "fido" (cleanupStuckDogs envProbeErr regStuck).2 = 0 ∧
     dogState (cleanupStuckDogs envProbeErr regStuck).1 "fido" = some DogState.working) :=
  ⟨(C6_stuck_repair envDead regStuck dogStuck rfl (by decide) (by decide) rfl).1 rfl rfl,
   (C6_stuck_repair envProbeErr regStuck dogStuck rfl (by decide) (by decide) rfl).2.1 rfl⟩

theorem parseSpawn_none_of_bad_subject (m : Message)
    (h : subjectParts m.subject = none) : parseSpawn m = none := by
  unfold parseSpawn
  unfold subjectParts at h
  cases hd : dropPre "POLECAT_STARTED ".data m.subject.data with
  | none => rfl
  | some rest =>
    rw [hd] at h
    dsimp only at h ⊢
    rw [h]

/-- C8 (confirmed, spec-modelled): scanning the mailbox whose only active
message is the basic started-notification yields exactly the expected
pending spawn (rig, polecat, session, issue, back-reference); any message
whose subject does not carry the notification pattern or lacks the `/`
separator parses to nothing, and a mailbox of such messages scans to the
empty list with no error. -/
theorem C8_scan_pending_spawns :
    checkMailboxForSpawns mbC8 = [psC8] ∧
    (∀ m : Message, subjectParts m.subject = none → parseSpawn m = none) ∧
    (∀ mb : Mbox, (∀ m ∈ mb.active, subjectParts m.subject = none) →
      checkMailboxForSpawns mb = []) := by
  refine ⟨by decide, fun m h => parseSpawn_none_of_bad_subject m h, ?_⟩
  intro mb hall
  unfold checkMailboxForSpawns
  rw [List.filterMap_eq_nil_iff]
  intro m hm
  exact parseSpawn_none_of_bad_subject m (hall m hm)

/-- Witness for C8 at concrete inputs: the malformed-subject message is
skipped and its mailbox scans empty. -/
theorem C8_witness :
    parseSpawn msgBad = none ∧ checkMailboxForSpawns mbBad = [] :=
  ⟨C8_scan_pending_spawns.2.1 msgBad (by decide),
   C8_scan_pending_spawns.2.2 mbBad (by decide)⟩

theorem archiveByID_active (mb : Mbox) (i : String) :
    (archiveByID mb i).active = mb.active.filter fun m => !decide (m.id = i) := by
  unfold archiveByID
  cases hf : mb.active.find? fun m => decide (m.id = i) with
  | none =>
    have hall : ∀ m ∈ mb.active, (fun m => !decide (m.id = i)) m = true := by
      intro m hm
      have := List.find?_eq_none.mp hf m hm
      simpa using this
    exact (List.filter_eq_self.mpr hall).symm
  | some mf => rfl

theorem mem_id_inj : ∀ (l : List Message), (l.map Message.id).Nodup →
    ∀ m m2, m ∈ l → m2 ∈ l → m.id = m2.id → m = m2 := by
  intro l
  induction l with
  | nil =>
    intro _ m m2 hm
    cases hm
  | cons a t ih =>
    intro hnd m m2 hm hm2 hid
    rw [List.map_cons, List.nodup_cons] at hnd
    rcases List.mem_cons.mp hm with h1 | h1 <;> rcases List.mem_cons.mp hm2 with h2 | h2
    · rw [h1, h2]
    · subst h1
      exact absurd (hid ▸ List.mem_map_of_mem Message.id h2) hnd.1
    · subst h2
      exact absurd (hid ▸ List.mem_map_of_mem Message.id h1) hnd.1
    · exact ih hnd.2 m m2 h1 h2 hid

theorem archiveByID_archived_mem (mb : Mbox) (i : String)
    (hnd : (mb.active.map Message.id).Nodup) :
    ∀ m, m ∈ (archiveByID mb i).archived ↔
      m ∈ mb.archived ∨ (m ∈ mb.active ∧ m.id = i) := by
  intro m
  unfold archiveByID
  cases hf : mb.active.find? fun x => decide (x.id = i) with
  | none =>
    constructor
    · intro h
      exact Or.inl h
    · intro h
      rcases h with h | ⟨hm, hid⟩
      · exact h
      · exfalso
        have := List.find?_eq_none.mp hf m hm
        simp [hid] at this
  | some mf =>
    have hmf : mf ∈ mb.active := List.mem_of_find?_eq_some hf
    have hmfid : mf.id = i := by simpa using List.find?_some hf
    show m ∈ mb.archived ++ [mf] ↔ _
    rw [List.mem_append, List.mem_singleton]
    constructor
    · rintro (h | h)
      · exact Or.inl h
      · subst h
        exact Or.inr ⟨hmf, hmfid⟩
    · rintro (h | ⟨hm, hid⟩)
      · exact Or.inl h
      · right
        exact mem_id_inj mb.active hnd m mf hm hmf (by rw [hid, hmfid])

theorem archiveByID_nodup (mb : Mbox) (i : String)
    (hnd : (mb.active.map Message.id).Nodup) :
    ((archiveByID mb i).active.map Message.id).Nodup := by
  rw [archiveByID_active]
  exact List.Nodup.sublist (List.Sublist.map Message.id (List.filter_sublist mb.active)) hnd

theorem staleIds_cons_pos (p : PendingSpawn) (rest : List PendingSpawn) (now maxAge : Int)
    (h : stale now maxAge p = true) :
    staleIds (p :: rest) now maxAge = p.mailId :: staleIds rest now maxAge := by
  simp [staleIds, List.filter_cons, h]

theorem staleIds_cons_neg (p : PendingSpawn) (rest : List PendingSpawn) (now maxAge : Int)
    (h : ¬ stale now maxAge p = true) :
    staleIds (p :: rest) now maxAge = staleIds rest now maxAge := by
  simp [staleIds, List.filter_cons, h]

theorem prune_ok_general :
    ∀ (pending : List PendingSpawn) (now maxAge : Int) (mb : Mbox),
      (∀ p ∈ pending, p.hasMailbox = true) →
      (mb.active.map Message.id).Nodup →
      ∃ mbF,
        pruneStalePendingFromList pending now maxAge mb =
          Except.ok ((pending.filter (stale now maxAge)).length, mbF) ∧
        mbF.active = (mb.active.filter fun m => !decide (m.id ∈ staleIds pending now maxAge)) ∧
        (∀ m, m ∈ mbF.archived ↔
          m ∈ mb.archived ∨ (m ∈ mb.active ∧ m.id ∈ staleIds pending now maxAge)) := by
  intro pending now maxAge
  induction pending with
  | nil =>
    intro mb hall hnd
    refine ⟨mb, rfl, ?_, ?_⟩
    · symm
      apply List.filter_eq_self.mpr
      intro a _
      simp [staleIds]
    · intro m
      simp [staleIds]
  | cons p rest ih =>
    intro mb hall hnd
    have hp := hall p (List.mem_cons_self p rest)
    have hrest : ∀ q ∈ rest, q.hasMailbox = true :=
      fun q hq => hall q (List.mem_cons_of_mem p hq)
    by_cases hst : stale now maxAge p = true
    · obtain ⟨mbF, heq, hact, harch⟩ :=
        ih (archiveByID mb p.mailId) hrest (archiveByID_nodup mb p.mailId hnd)
      have hlen : (List.filter (stale now maxAge) (p :: rest)).length
          = (List.filter (stale now maxAge) rest).length + 1 := by
        simp [List.filter_cons, hst]
      refine ⟨mbF, ?_, ?_, ?_⟩
      · show pruneStalePendingFromList (p :: rest) now maxAge mb = _
        unfold pruneStalePendingFromList
        rw [if_pos hst, if_pos hp, heq, hlen]
      · rw [hact, archiveByID_active, List.filter_filter, staleIds_cons_pos p rest now maxAge hst]
        apply List.filter_congr
        intro m _
        by_cases h1 : m.id = p.mailId <;> by_cases h2 : m.id ∈ staleIds rest now maxAge <;>
          simp [h1, h2, List.mem_cons]
      · intro m
        rw [harch m, archiveByID_archived_mem mb p.mailId hnd m,
            staleIds_cons_pos p rest now maxAge hst]
        have hactm : m ∈ (archiveByID mb p.mailId).active ↔
            m ∈ mb.active ∧ ¬ m.id = p.mailId := by
          rw [archiveByID_active, List.mem_filter]
          simp
        rw [hactm, List.mem_cons]
        constructor
        · rintro ((h | ⟨hm, hid⟩) | ⟨⟨hm, hne⟩, hin⟩)
          · exact Or.inl h
          · exact Or.inr ⟨hm, Or.inl hid⟩
          · exact Or.inr ⟨hm, Or.inr hin⟩
        · rintro (h | ⟨hm, hid | hin⟩)
          · exact Or.inl (Or.inl h)
          · exact Or.inl (Or.inr ⟨hm, hid⟩)
          · by_cases hne : m.id = p.mailId
            · exact Or.inl (Or.inr ⟨hm, hne⟩)
            · exact Or.inr ⟨⟨hm, hne⟩, hin⟩
    · obtain ⟨mbF, heq, hact, harch⟩ := ih mb hrest hnd
      have hlen : (List.filter (stale now maxAge) (p :: rest)).length
          = (List.filter (stale now maxAge) rest).length := by
        simp [List.filter_cons, hst]
      refine ⟨mbF, ?_, ?_, ?_⟩
      · show pruneStalePendingFromList (p :: rest) now maxAge mb = _
        unfold pruneStalePendingFromList
        rw [if_neg hst, heq, hlen]
      · rw [hact, staleIds_cons_neg p rest now maxAge hst]
      · intro m
        rw [harch m, staleIds_cons_neg p rest now maxAge hst]

theorem prune_error_general :
    ∀ (pending : List PendingSpawn) (now maxAge : Int) (mb : Mbox) (p : PendingSpawn),
      p ∈ pending → stale now maxAge p = true → p.hasMailbox = false →
      ∃ e, pruneStalePendingFromList pending now maxAge mb = Except.error e := by
  intro pending now maxAge
  induction pending with
  | nil =>
    intro mb p hp
    cases hp
  | cons q rest ih =>
    intro mb p hp hst hnil
    rcases List.mem_cons.mp hp with h1 | h1
    · subst h1
      refine ⟨"nil mailbox in pending spawn", ?_⟩
      unfold pruneStalePendingFromList
      rw [if_pos hst, if_neg (by simp [hnil])]
    · by_cases hq : stale now maxAge q = true
      · by_cases hqm : q.hasMailbox = true
        · obtain ⟨e, he⟩ := ih (archiveByID mb q.mailId) p h1 hst hnil
          refine ⟨e, ?_⟩
          unfold pruneStalePendingFromList
          rw [if_pos hq, if_pos hqm, he]
        · refine ⟨"nil mailbox in pending spawn", ?_⟩
          unfold pruneStalePendingFromList
          rw [if_pos hq, if_neg hqm]
      · obtain ⟨e, he⟩ := ih mb p h1 hst hnil
        refine ⟨e, ?_⟩
        unfold pruneStalePendingFromList
        rw [if_neg hq]
        exact he

/-- C9 (confirmed, spec-modelled): for a pending list whose entries all
carry a mailbox reference (and a mailbox with distinct active-message ids),
PruneStale returns ok with the count of exactly the stale entries (those
whose spawnedAt is older than `now - maxAge`); the resulting mailbox keeps
active exactly the messages not targeted by a stale entry, and archives
exactly the previously-active messages targeted by a stale entry.  A stale
entry lacking a mailbox reference makes the call return an error
(NilMailboxError) instead. -/
theorem C9_prune_stale :
    (∀ (pending : List PendingSpawn) (now maxAge : Int) (mb : Mbox),
       (∀ p ∈ pending, p.hasMailbox = true) →
       (mb.active.map Message.id).Nodup →
       ∃ mbF,
         pruneStalePendingFromList pending now maxAge mb =
           Except.ok ((pending.filter (stale now maxAge)).length, mbF) ∧
         mbF.active = (mb.active.filter fun m => !decide (m.id ∈ staleIds pending now maxAge)) ∧
         (∀ m, m ∈ mbF.archived ↔
           m ∈ mb.archived ∨ (m ∈ mb.active ∧ m.id ∈ staleIds pending now maxAge)))
    ∧ (∀ (pending : List PendingSpawn) (now maxAge : Int) (mb : Mbox) (p : PendingSpawn),
         p ∈ pending → stale now maxAge p = true → p.hasMailbox = false →
         ∃ e, pruneStalePendingFromList pending now maxAge mb = Except.error e) :=
  ⟨prune_ok_general, prune_error_general⟩

/-- Witness for C9 at concrete inputs: pruning the 10-minute-old and
1-minute-old spawns with a 5-minute maxAge, and the nil-mailbox error
case. -/
theorem C9_witness :
    (∃ mbF,
       pruneStalePendingFromList [psOld, psNew] 0 300 mbPrune =
         Except.ok (([psOld, psNew].filter (stale 0 300)).length, mbF) ∧
       mbF.active = (mbPrune.active.filter fun m => !decide (m.id ∈ staleIds [psOld, psNew] 0 300)) ∧
       (∀ m, m ∈ mbF.archived ↔
         m ∈ mbPrune.archived ∨ (m ∈ mbPrune.active ∧ m.id ∈ staleIds [psOld, psNew] 0 300))) ∧
    (∃ e, pruneStalePendingFromList [psNil] 0 300 mbPrune = Except.error e) :=
  ⟨C9_prune_stale.1 [psOld, psNew] 0 300 mbPrune (by decide) (by decide),
   C9_prune_stale.2 [psNil] 0 300 mbPrune psNil (by decide) (by decide) (by decide)⟩
